import Mathlib

/-!
# Verification of the KRPC protocol codec (`src/bt/protocol.rs`)

Shallow embedding of the KRPC message codec of a BitTorrent Mainline DHT
node.  Bytes are modelled as `Nat` (with `< 256` bounds stated where the
Rust `u8` type guarantees them), the arbitrary-precision `num::BigUint`
node identifier as `Nat`, the bencode value tree as an inductive type, and
`BTreeMap` dictionaries as association lists ordered by the lexicographic
byte order (the `BTreeMap` invariant).  Fallible Rust paths (`Option` with
a per-site `debug!` message) are modelled with `Except DecodeError`, one
constructor per distinct failure site, following the spec's failure
taxonomy which names each site.
-/

namespace Dht

/-! ## Identifier codec: `id_to_netbytes` / `id_from_netbytes` -/

/-- `ID_BYTE_SIZE` from the source: identifiers serialize to 20 bytes. -/
def ID_BYTE_SIZE : Nat := 20

/-- The loop of `id_to_netbytes`: fill `k` bytes from the least-significant
end backward, each step taking the low 8 bits (`id_c & mask`) and shifting
the value right by 8 (`id_c >> 8`). -/
def natToBytesAux : Nat → Nat → List Nat
  | 0, _ => []
  | k + 1, v => natToBytesAux k (v / 256) ++ [v % 256]

/-- `id_to_netbytes`: big-endian 20-byte encoding of a node identifier.
The source asserts `id.bits() <= ID_BYTE_SIZE * 8` on entry; that
precondition is `id < 2 ^ 160` and is carried as a hypothesis by the
theorems (see also `id_to_netbytes_checked`). -/
def id_to_netbytes (id : Nat) : List Nat :=
  natToBytesAux ID_BYTE_SIZE id

/-- `id_from_netbytes`: iterate the bytes in reverse, shifting each byte
left by an increasing multiple of 8 and summing; equivalently the
big-endian value of the byte list, which is the form used here. -/
def id_from_netbytes : List Nat → Nat
  | [] => 0
  | b :: rest => b * 256 ^ rest.length + id_from_netbytes rest

theorem natToBytesAux_length (k v : Nat) : (natToBytesAux k v).length = k := by
  induction k generalizing v with
  | zero => rfl
  | succ k ih => simp [natToBytesAux, ih]

theorem natToBytesAux_mem_lt (k v : Nat) :
    ∀ b ∈ natToBytesAux k v, b < 256 := by
  induction k generalizing v with
  | zero => intro b hb; simp [natToBytesAux] at hb
  | succ k ih =>
    intro b hb
    simp only [natToBytesAux, List.mem_append, List.mem_singleton] at hb
    rcases hb with hb | hb
    · exact ih _ b hb
    · subst hb; exact Nat.mod_lt _ (by norm_num)

theorem id_from_netbytes_append_single (xs : List Nat) (b : Nat) :
    id_from_netbytes (xs ++ [b]) = 256 * id_from_netbytes xs + b := by
  induction xs with
  | nil => simp [id_from_netbytes]
  | cons x xs ih =>
    simp only [List.cons_append, id_from_netbytes, List.append_eq, ih,
      List.length_append, List.length_singleton]
    ring

theorem id_from_natToBytesAux (k v : Nat) (h : v < 256 ^ k) :
    id_from_netbytes (natToBytesAux k v) = v := by
  induction k generalizing v with
  | zero => interval_cases v; rfl
  | succ k ih =>
    have hdiv : v / 256 < 256 ^ k := by
      rw [Nat.div_lt_iff_lt_mul (by norm_num)]
      calc v < 256 ^ (k + 1) := h
      _ = 256 ^ k * 256 := by ring
    simp only [natToBytesAux, id_from_netbytes_append_single, ih _ hdiv]
    omega

theorem id_from_netbytes_lt (xs : List Nat) (h : ∀ b ∈ xs, b < 256) :
    id_from_netbytes xs < 256 ^ xs.length := by
  induction xs with
  | nil => simp [id_from_netbytes]
  | cons x xs ih =>
    have hx : x < 256 := h x (List.mem_cons_self x xs)
    have hxs := ih fun b hb => h b (List.mem_cons_of_mem x hb)
    simp only [id_from_netbytes, List.length_cons]
    calc x * 256 ^ xs.length + id_from_netbytes xs
        < x * 256 ^ xs.length + 256 ^ xs.length := by omega
      _ = (x + 1) * 256 ^ xs.length := by ring
      _ ≤ 256 * 256 ^ xs.length := by
          have : x + 1 ≤ 256 := hx
          exact Nat.mul_le_mul_right _ this
      _ = 256 ^ (xs.length + 1) := by ring

theorem natToBytesAux_id_from_netbytes (xs : List Nat)
    (hxs : ∀ b ∈ xs, b < 256) :
    natToBytesAux xs.length (id_from_netbytes xs) = xs := by
  induction xs using List.reverseRecOn with
  | nil => rfl
  | append_singleton ys b ih =>
    have hb : b < 256 := hxs b (by simp)
    have hys : ∀ x ∈ ys, x < 256 := fun x hx => hxs x (by simp [hx])
    have hv : id_from_netbytes (ys ++ [b]) = 256 * id_from_netbytes ys + b :=
      id_from_netbytes_append_single ys b
    simp only [List.length_append, List.length_singleton, hv, natToBytesAux]
    have hdiv : (256 * id_from_netbytes ys + b) / 256 = id_from_netbytes ys := by
      omega
    have hmod : (256 * id_from_netbytes ys + b) % 256 = b := by
      omega
    rw [hdiv, hmod, ih hys]

/-! ## Network addresses and nodes -/

/-- An IPv4 socket address: four octets and a port.  In the Rust source
this is `std::net` data reached through `base::Node.address`; the octet
and port bounds are guaranteed by the `u8`/`u16` machine types. -/
structure NetAddr where
  o1 : Nat
  o2 : Nat
  o3 : Nat
  o4 : Nat
  port : Nat
deriving DecidableEq, Repr

/-- Modelled from the spec: the external Address Codec
(`utils::netaddr_to_netbytes`, not under `src/`) "converts an IPv4
address + port to/from a fixed 6-byte representation" — 4 bytes address,
2 bytes port, big-endian port. -/
def netaddr_to_netbytes (a : NetAddr) : List Nat :=
  [a.o1, a.o2, a.o3, a.o4, a.port / 256, a.port % 256]

/-- Modelled from the spec: the external Address Codec
(`utils::netaddr_from_netbytes`, not under `src/`) decoding of the 6-byte
representation.  The caller (`base::Node::from_bencode`) always passes
exactly 6 bytes (`v[20..26]` of a 26-byte string); other lengths do not
occur. -/
def netaddr_from_netbytes (bytes : List Nat) : NetAddr :=
  match bytes with
  | [b1, b2, b3, b4, hi, lo] => ⟨b1, b2, b3, b4, hi * 256 + lo⟩
  | _ => ⟨0, 0, 0, 0, 0⟩

theorem netaddr_roundtrip (a : NetAddr) :
    netaddr_from_netbytes (netaddr_to_netbytes a) = a := by
  obtain ⟨o1, o2, o3, o4, port⟩ := a
  show NetAddr.mk o1 o2 o3 o4 (port / 256 * 256 + port % 256) =
    NetAddr.mk o1 o2 o3 o4 port
  congr 1
  omega

/-- `base::Node`: a 160-bit identifier (`num::BigUint`, modelled as `Nat`)
plus a socket address. -/
structure Node where
  id : Nat
  address : NetAddr
deriving DecidableEq, Repr

/-! ## The bencode value tree (`bencode::Bencode`) and `BTreeMap` dicts -/

/-- `bencode::util::ByteString`: a dictionary key, a raw byte string. -/
abbrev Key := List Nat

/-- `bencode::Bencode`: the generic value tree of the external
serialization library (`Empty`, `Number(i64)`, `ByteString(Vec<u8>)`,
`List`, `Dict(BTreeMap<ByteString, Bencode>)`).  Dictionaries are
association lists kept in the lexicographic key order `BTreeMap`
maintains. -/
inductive Bencode where
  | empty : Bencode
  | num : Int → Bencode
  | bytes : List Nat → Bencode
  | blist : List Bencode → Bencode
  | dict : List (Key × Bencode) → Bencode

/-- `bencode::DictMap` (`BTreeMap<ByteString, Bencode>`), as a sorted
association list. -/
abbrev DictMap := List (Key × Bencode)

/-- Strict lexicographic order on byte-string keys (the `Ord` instance of
`Vec<u8>` that `BTreeMap` sorts by). -/
def keyLt : Key → Key → Bool
  | [], [] => false
  | [], _ :: _ => true
  | _ :: _, [] => false
  | a :: as_, b :: bs => if a < b then true else if b < a then false else keyLt as_ bs

/-- `BTreeMap::insert`: place the binding at its sorted position,
replacing an existing binding with the same key. -/
def dictInsert (k : Key) (v : Bencode) : DictMap → DictMap
  | [] => [(k, v)]
  | (k2, v2) :: rest =>
    if keyLt k k2 then (k, v) :: (k2, v2) :: rest
    else if k = k2 then (k, v) :: rest
    else (k2, v2) :: dictInsert k v rest

/-- `BTreeMap::get`: look a key up. -/
def dictGet (k : Key) : DictMap → Option Bencode
  | [] => none
  | (k2, v) :: rest => if k = k2 then some v else dictGet k rest

/-- `BTreeMap::remove`, dropping the binding of `k` if present. -/
def dictRemove (k : Key) : DictMap → DictMap
  | [] => []
  | (k2, v) :: rest => if k = k2 then rest else (k2, v) :: dictRemove k rest

theorem dictGet_dictInsert_self (k : Key) (v : Bencode) (d : DictMap) :
    dictGet k (dictInsert k v d) = some v := by
  induction d with
  | nil => simp [dictInsert, dictGet]
  | cons p rest ih =>
    obtain ⟨k2, v2⟩ := p
    by_cases hlt : keyLt k k2
    · simp [dictInsert, hlt, dictGet]
    · by_cases heq : k = k2
      · subst heq
        simp [dictInsert, hlt, dictGet]
      · simp [dictInsert, hlt, heq, dictGet, ih]

theorem dictRemove_dictInsert (k : Key) (v : Bencode) (d : DictMap)
    (h : dictGet k d = none) :
    dictRemove k (dictInsert k v d) = d := by
  induction d with
  | nil => simp [dictInsert, dictRemove]
  | cons p rest ih =>
    obtain ⟨k2, v2⟩ := p
    by_cases heq : k = k2
    · simp [dictGet, heq] at h
    · simp only [dictGet, if_neg heq] at h
      by_cases hlt : keyLt k k2
      · simp [dictInsert, hlt, dictRemove, heq]
      · simp [dictInsert, hlt, heq, dictRemove, ih h]

/-! ## Decode failure taxonomy

The Rust decoder returns `Option` and logs a distinct `debug!` message at
each failure site; the spec names those sites (`NotADict`, `MissingType`,
`MissingPayload`, `UnknownType`, `BadErrorShape`, `BadBodyShape`,
`MissingSender`, `InvalidNode`, `InvalidLength`, `MissingTransactionId`).
We model each site with its named reason. -/

inductive DecodeError where
  | notADict
  | missingType
  | missingPayload
  | unknownType
  | badErrorShape
  | badBodyShape
  | missingSender
  | invalidNode
  | invalidLength
  | missingTransactionId
deriving DecidableEq, Repr

/-! ## Compact node codec (`impl ToBencode / FromBencode for base::Node`) -/

/-- `base::Node::to_bencode`: the 20 identifier bytes followed by the 6
address bytes, as one byte string. -/
def node_to_bencode (n : Node) : Bencode :=
  Bencode.bytes (id_to_netbytes n.id ++ netaddr_to_netbytes n.address)

/-- `base::Node::from_bencode`: accept exactly a 26-byte string, split it
into identifier and address; everything else is rejected wholesale
(`InvalidLength`, the wrong-compact-node-length reason). -/
def node_from_bencode (b : Bencode) : Except DecodeError Node :=
  match b with
  | Bencode.bytes v =>
    if v.length = 26 then
      Except.ok { id := id_from_netbytes (v.take 20),
                  address := netaddr_from_netbytes (v.drop 20) }
    else Except.error DecodeError.invalidLength
  | _ => Except.error DecodeError.invalidLength

/-! ## UTF-8 validity (`BytesContainer::container_as_str` success) -/

/-- A UTF-8 continuation byte (`10xxxxxx`). -/
def contByte (b : Nat) : Bool := decide (0x80 ≤ b ∧ b ≤ 0xBF)

/-- Validity of a byte sequence as UTF-8, per RFC 3629 (what Rust's
`container_as_str` checks): rejects overlong forms, surrogates and code
points above `U+10FFFF`. -/
def isValidUtf8 : List Nat → Bool
  | [] => true
  | b :: rest =>
    if b ≤ 0x7F then isValidUtf8 rest
    else if b < 0xC2 then false
    else if b ≤ 0xDF then
      match rest with
      | c1 :: rest2 => contByte c1 && isValidUtf8 rest2
      | [] => false
    else if b ≤ 0xEF then
      match rest with
      | c1 :: c2 :: rest2 =>
        (if b = 0xE0 then decide (0xA0 ≤ c1 ∧ c1 ≤ 0xBF)
         else if b = 0xED then decide (0x80 ≤ c1 ∧ c1 ≤ 0x9F)
         else contByte c1) && contByte c2 && isValidUtf8 rest2
      | _ => false
    else if b ≤ 0xF4 then
      match rest with
      | c1 :: c2 :: c3 :: rest2 =>
        (if b = 0xF0 then decide (0x90 ≤ c1 ∧ c1 ≤ 0xBF)
         else if b = 0xF4 then decide (0x80 ≤ c1 ∧ c1 ≤ 0x8F)
         else contByte c1) && contByte c2 && contByte c3 && isValidUtf8 rest2
      | _ => false
    else false

/-! ## Payload and Package -/

/-- `Payload`: Query, Response (each an ordered field mapping) or Error
(code and message).  A Rust `String` is its UTF-8 byte content, so the
error message is carried as bytes; validity is stated where a claim needs
it. -/
inductive Payload where
  | query : DictMap → Payload
  | response : DictMap → Payload
  | error : Int → List Nat → Payload

/-- `Package`: transaction id bytes, payload, optional sender node. -/
structure Package where
  transaction_id : List Nat
  payload : Payload
  sender : Option Node

/-- `"q"` -/
def QUERY : Key := [113]
/-- `"r"` -/
def RESPONSE : Key := [114]
/-- `"e"` -/
def ERROR : Key := [101]
/-- `"y"` -/
def TYPE : Key := [121]
/-- `"tt"` -/
def TR_ID : Key := [116, 116]
/-- `"id"` -/
def SENDER : Key := [105, 100]

/-- The UTF-8 bytes of the fixed placeholder message `"Unknown error"`
substituted when an Error message is not valid UTF-8. -/
def unknownError : List Nat :=
  [85, 110, 107, 110, 111, 119, 110, 32, 101, 114, 114, 111, 114]

/-! ## Package encoder (`impl ToBencode for Package`) -/

/-- `dict_with_sender`: clone the payload dict and, when a sender is
present, insert its compact encoding under `"id"`. -/
def dict_with_sender (d : DictMap) (maybe_sender : Option Node) : Bencode :=
  match maybe_sender with
  | some sender => Bencode.dict (dictInsert SENDER (node_to_bencode sender) d)
  | none => Bencode.dict d

/-- `Package::to_bencode`: a dict with `"tt"` ↦ transaction id, `"y"` ↦
the type tag, and the tag itself ↦ the payload representation.  The three
inserts happen in source order (tt, then y, then the tag). -/
def package_to_bencode (p : Package) : Bencode :=
  let tp : Key × Bencode :=
    match p.payload with
    | Payload.query d => (QUERY, dict_with_sender d p.sender)
    | Payload.response d => (RESPONSE, dict_with_sender d p.sender)
    | Payload.error code s =>
      (ERROR, Bencode.blist [Bencode.num code, Bencode.bytes s])
  Bencode.dict (dictInsert tp.1 tp.2
    (dictInsert TYPE (Bencode.bytes tp.1)
      (dictInsert TR_ID (Bencode.bytes p.transaction_id) [])))

/-! ## Package decoder (`impl FromBencode for Package`) -/

/-- The `extract_sender!` macro: remove `"id"` from a cloned body dict —
absent means `MissingSender`; then decode it as a compact node, any
failure there surfacing as `InvalidNode`. -/
def extract_sender (d : DictMap) (ty : DictMap → Payload) :
    Except DecodeError (Payload × Option Node) :=
  match dictGet SENDER d with
  | some sender_be =>
    match node_from_bencode sender_be with
    | Except.ok sender => Except.ok (ty (dictRemove SENDER d), some sender)
    | Except.error _ => Except.error DecodeError.invalidNode
  | none => Except.error DecodeError.missingSender

/-- The `(payload, sender) = match typ.container_as_str() ...` branch of
`Package::from_bencode`.  Comparing the decoded string against the ASCII
literals `"e"`/`"q"`/`"r"` is equivalent to comparing the raw bytes
against their UTF-8 encodings; any other tag — other text or invalid
UTF-8 — fails (`UnknownType`).  In the Error branch a non-UTF-8 message
is replaced by the fixed placeholder instead of failing. -/
def decode_payload (typ : Key) (payload_data : Bencode) :
    Except DecodeError (Payload × Option Node) :=
  if typ = ERROR then
    match payload_data with
    | Bencode.blist [Bencode.num code, Bencode.bytes msg] =>
      let str_msg := if isValidUtf8 msg then msg else unknownError
      Except.ok (Payload.error code str_msg, none)
    | _ => Except.error DecodeError.badErrorShape
  else if typ = QUERY then
    match payload_data with
    | Bencode.dict d => extract_sender d Payload.query
    | _ => Except.error DecodeError.badBodyShape
  else if typ = RESPONSE then
    match payload_data with
    | Bencode.dict d => extract_sender d Payload.response
    | _ => Except.error DecodeError.badBodyShape
  else Except.error DecodeError.unknownType

/-- `Package::from_bencode`: top level must be a dict; `"y"` must be a
byte string; the dict must have an entry under those very bytes; the
payload branch runs; finally `"tt"` must be a byte string, and the
package is assembled.  Each failure site carries its spec-named reason. -/
def package_from_bencode (b : Bencode) : Except DecodeError Package :=
  match b with
  | Bencode.dict dict =>
    match dictGet TYPE dict with
    | some (Bencode.bytes typ) =>
      match dictGet typ dict with
      | some payload_data =>
        match decode_payload typ payload_data with
        | Except.ok (payload, sender) =>
          match dictGet TR_ID dict with
          | some (Bencode.bytes tt) =>
            Except.ok { transaction_id := tt, payload := payload,
                        sender := sender }
          | _ => Except.error DecodeError.missingTransactionId
        | Except.error e => Except.error e
      | none => Except.error DecodeError.missingPayload
    | _ => Except.error DecodeError.missingType
  | _ => Except.error DecodeError.notADict

/-! ## Checked encoder: the assertion and `u8` narrowing made explicit

`id_to_netbytes` asserts `id.bits() <= ID_BYTE_SIZE * 8` on entry and
narrows each extracted part with `to_u8().unwrap()`.  The checked
variants turn both partial operations into explicit `Option` failures so
totality of encoding can be stated. -/

/-- `BigUint::to_u8` succeeds exactly on values below 256. -/
def byte_to_u8 (n : Nat) : Option Nat := if n < 256 then some n else none

/-- The loop of `id_to_netbytes` with the `to_u8().unwrap()` made
fallible. -/
def natToBytesAuxChecked : Nat → Nat → Option (List Nat)
  | 0, _ => some []
  | k + 1, v =>
    match natToBytesAuxChecked k (v / 256), byte_to_u8 (v % 256) with
    | some bs, some b => some (bs ++ [b])
    | _, _ => none

/-- `id_to_netbytes` with the entry assertion (`id.bits() ≤ 160`, i.e.
`id < 2 ^ 160`) made fallible. -/
def id_to_netbytes_checked (id : Nat) : Option (List Nat) :=
  if id < 2 ^ (ID_BYTE_SIZE * 8) then natToBytesAuxChecked ID_BYTE_SIZE id
  else none

/-- `base::Node::to_bencode` through the checked identifier encoder. -/
def node_to_bencode_checked (n : Node) : Option Bencode :=
  (id_to_netbytes_checked n.id).map fun idb =>
    Bencode.bytes (idb ++ netaddr_to_netbytes n.address)

/-- `dict_with_sender` through the checked node encoder. -/
def dict_with_sender_checked (d : DictMap) (maybe_sender : Option Node) :
    Option Bencode :=
  match maybe_sender with
  | some sender => (node_to_bencode_checked sender).map fun sb =>
      Bencode.dict (dictInsert SENDER sb d)
  | none => some (Bencode.dict d)

/-- `Package::to_bencode` through the checked encoders: fails exactly
when one of the partial operations inside encoding would panic. -/
def package_to_bencode_checked (p : Package) : Option Bencode :=
  let tpOpt : Option (Key × Bencode) :=
    match p.payload with
    | Payload.query d =>
      (dict_with_sender_checked d p.sender).map fun pb => (QUERY, pb)
    | Payload.response d =>
      (dict_with_sender_checked d p.sender).map fun pb => (RESPONSE, pb)
    | Payload.error code s =>
      some (ERROR, Bencode.blist [Bencode.num code, Bencode.bytes s])
  tpOpt.map fun tp =>
    Bencode.dict (dictInsert tp.1 tp.2
      (dictInsert TYPE (Bencode.bytes tp.1)
        (dictInsert TR_ID (Bencode.bytes p.transaction_id) [])))

/-! ## Helper lemmas shared across the claims -/

theorem id_to_netbytes_length (v : Nat) : (id_to_netbytes v).length = 20 :=
  natToBytesAux_length ID_BYTE_SIZE v

theorem id_from_id_to_netbytes (v : Nat) (h : v < 2 ^ 160) :
    id_from_netbytes (id_to_netbytes v) = v :=
  id_from_natToBytesAux ID_BYTE_SIZE v (by norm_num at h ⊢; exact h)

theorem netaddr_to_netbytes_length (a : NetAddr) :
    (netaddr_to_netbytes a).length = 6 := rfl

theorem node_bytes_length (n : Node) :
    (id_to_netbytes n.id ++ netaddr_to_netbytes n.address).length = 26 := by
  simp [List.length_append, id_to_netbytes_length, netaddr_to_netbytes_length]

theorem node_decode_encode (n : Node) (h : n.id < 2 ^ 160) :
    node_from_bencode (node_to_bencode n) = Except.ok n := by
  have hlen : (id_to_netbytes n.id).length = 20 := id_to_netbytes_length n.id
  simp only [node_to_bencode, node_from_bencode, node_bytes_length n, if_pos rfl,
    List.take_left' hlen, List.drop_left' hlen,
    id_from_id_to_netbytes n.id h, netaddr_roundtrip, if_true]

theorem natToBytesAuxChecked_eq (k v : Nat) :
    natToBytesAuxChecked k v = some (natToBytesAux k v) := by
  induction k generalizing v with
  | zero => rfl
  | succ k ih =>
    simp [natToBytesAuxChecked, natToBytesAux, ih, byte_to_u8,
      Nat.mod_lt v (show 0 < 256 by norm_num)]

/-! ## Claim theorems -/

/-- C2.  For every unsigned integer `v < 2 ^ 160`, `id_to_netbytes v` has
length exactly 20 and `id_from_netbytes (id_to_netbytes v) = v`. -/
theorem claim_id_roundtrip (v : Nat) (h : v < 2 ^ 160) :
    (id_to_netbytes v).length = 20 ∧
      id_from_netbytes (id_to_netbytes v) = v :=
  ⟨id_to_netbytes_length v, id_from_id_to_netbytes v h⟩

/-- C2 witness at `v = 42`. -/
theorem claim_id_roundtrip_witness :
    (42 : Nat) < 2 ^ 160 ∧
      ((id_to_netbytes 42).length = 20 ∧
        id_from_netbytes (id_to_netbytes 42) = 42) :=
  ⟨by norm_num, claim_id_roundtrip 42 (by norm_num)⟩

/-- C9.  For every byte sequence of length exactly 20, decoding yields a
value strictly below `2 ^ 160`, and re-encoding that value reproduces the
bytes. -/
theorem claim_id_reverse_roundtrip (bs : List Nat) (hlen : bs.length = 20)
    (hb : ∀ b ∈ bs, b < 256) :
    id_from_netbytes bs < 2 ^ 160 ∧
      id_to_netbytes (id_from_netbytes bs) = bs := by
  constructor
  · have := id_from_netbytes_lt bs hb
    rw [hlen] at this
    calc id_from_netbytes bs < 256 ^ 20 := this
      _ = 2 ^ 160 := by norm_num
  · have := natToBytesAux_id_from_netbytes bs hb
    rw [hlen] at this
    exact this

/-- C9 witness at the 20-byte sequence `[0, …, 0, 42]`. -/
theorem claim_id_reverse_roundtrip_witness :
    (List.replicate 19 0 ++ [42]).length = 20 ∧
      (∀ b ∈ List.replicate 19 (0 : Nat) ++ [42], b < 256) ∧
      (id_from_netbytes (List.replicate 19 0 ++ [42]) < 2 ^ 160 ∧
        id_to_netbytes (id_from_netbytes (List.replicate 19 0 ++ [42])) =
          List.replicate 19 0 ++ [42]) :=
  ⟨by decide, by decide,
    claim_id_reverse_roundtrip (List.replicate 19 0 ++ [42])
      (by decide) (by decide)⟩

/-- C3.  For every node whose identifier is below `2 ^ 160`: the compact
encoding is a byte string of length exactly 26, and decoding it yields
the node back. -/
theorem claim_node_roundtrip (n : Node) (h : n.id < 2 ^ 160) :
    (∃ v, node_to_bencode n = Bencode.bytes v ∧ v.length = 26) ∧
      node_from_bencode (node_to_bencode n) = Except.ok n :=
  ⟨⟨id_to_netbytes n.id ++ netaddr_to_netbytes n.address, rfl,
      node_bytes_length n⟩,
    node_decode_encode n h⟩

/-- C3 witness at the node with identifier 42 and address
`127.0.0.1:8008`. -/
theorem claim_node_roundtrip_witness :
    (Node.mk 42 ⟨127, 0, 0, 1, 8008⟩).id < 2 ^ 160 ∧
      ((∃ v, node_to_bencode (Node.mk 42 ⟨127, 0, 0, 1, 8008⟩) =
          Bencode.bytes v ∧ v.length = 26) ∧
        node_from_bencode (node_to_bencode (Node.mk 42 ⟨127, 0, 0, 1, 8008⟩)) =
          Except.ok (Node.mk 42 ⟨127, 0, 0, 1, 8008⟩)) :=
  ⟨by norm_num, claim_node_roundtrip _ (by norm_num)⟩

/-- C4.  Compact-node decoding of a byte sequence whose length is not 26
fails with the distinct reason `InvalidLength`; no node is produced. -/
theorem claim_node_decode_wrong_length (v : List Nat) (h : v.length ≠ 26) :
    node_from_bencode (Bencode.bytes v) =
      Except.error DecodeError.invalidLength := by
  simp [node_from_bencode, h]

/-- C4 witness at the empty byte sequence. -/
theorem claim_node_decode_wrong_length_witness :
    ([] : List Nat).length ≠ 26 ∧
      node_from_bencode (Bencode.bytes []) =
        Except.error DecodeError.invalidLength :=
  ⟨by decide, claim_node_decode_wrong_length [] (by decide)⟩

/-- C8.  Package encoding is total: when the sender's identifier (if a
sender is present) is below `2 ^ 160`, the encoder with the entry
assertion and the per-byte `u8` narrowing made explicit succeeds and
agrees with the plain encoder — the assertion holds and the narrowing
never fails. -/
theorem node_to_bencode_checked_eq (n : Node) (h : n.id < 2 ^ 160) :
    node_to_bencode_checked n = some (node_to_bencode n) := by
  have h' : n.id < 2 ^ (ID_BYTE_SIZE * 8) := by
    simpa [ID_BYTE_SIZE] using h
  simp [node_to_bencode_checked, id_to_netbytes_checked, if_pos h',
    natToBytesAuxChecked_eq, node_to_bencode, id_to_netbytes]

theorem dict_with_sender_checked_eq (d : DictMap) (s : Option Node)
    (h : ∀ n, s = some n → n.id < 2 ^ 160) :
    dict_with_sender_checked d s = some (dict_with_sender d s) := by
  cases s with
  | none => rfl
  | some n =>
    simp [dict_with_sender_checked, dict_with_sender,
      node_to_bencode_checked_eq n (h n rfl)]

/-- C8.  Package encoding is total: when the sender's identifier (if a
sender is present) is below `2 ^ 160`, the encoder with the entry
assertion and the per-byte `u8` narrowing made explicit succeeds and
agrees with the plain encoder — the assertion holds and the `u8`
narrowing never fails. -/
theorem claim_encode_total (p : Package)
    (h : ∀ n, p.sender = some n → n.id < 2 ^ 160) :
    package_to_bencode_checked p = some (package_to_bencode p) := by
  obtain ⟨tt, pl, snd⟩ := p
  have hsnd : ∀ n, snd = some n → n.id < 2 ^ 160 := h
  cases pl with
  | query d =>
    simp [package_to_bencode_checked, package_to_bencode,
      dict_with_sender_checked_eq d snd hsnd]
  | response d =>
    simp [package_to_bencode_checked, package_to_bencode,
      dict_with_sender_checked_eq d snd hsnd]
  | error code s =>
    simp [package_to_bencode_checked, package_to_bencode]

/-- C8 witness at a query package with sender identifier 42. -/
theorem claim_encode_total_witness :
    (∀ n, (Package.mk [1] (Payload.query [])
        (some (Node.mk 42 ⟨127, 0, 0, 1, 8008⟩))).sender = some n →
        n.id < 2 ^ 160) ∧
      package_to_bencode_checked
          (Package.mk [1] (Payload.query [])
            (some (Node.mk 42 ⟨127, 0, 0, 1, 8008⟩))) =
        some (package_to_bencode
          (Package.mk [1] (Payload.query [])
            (some (Node.mk 42 ⟨127, 0, 0, 1, 8008⟩)))) :=
  ⟨fun n hn => by cases hn; norm_num,
    claim_encode_total _ (fun n hn => by cases hn; norm_num)⟩

/-- C1.  A Query or Response package with a sender whose identifier is
below `2 ^ 160` and whose field mapping does not contain the reserved key
`"id"` decodes from its own encoding to exactly itself. -/
theorem claim_package_roundtrip (p : Package) (fields : DictMap) (n : Node)
    (hpl : p.payload = Payload.query fields ∨
      p.payload = Payload.response fields)
    (hs : p.sender = some n)
    (hid : dictGet SENDER fields = none)
    (hn : n.id < 2 ^ 160) :
    package_from_bencode (package_to_bencode p) = Except.ok p := by
  obtain ⟨tt, pl, snd⟩ := p
  have hs' : snd = some n := hs
  have hpl' : pl = Payload.query fields ∨ pl = Payload.response fields := hpl
  subst hs'
  have h1 := dictGet_dictInsert_self SENDER (node_to_bencode n) fields
  have h2 := dictRemove_dictInsert SENDER (node_to_bencode n) fields hid
  have h3 := node_decode_encode n hn
  rcases hpl' with h | h <;> subst h <;>
    simp +decide [package_to_bencode, dict_with_sender, dictInsert, keyLt,
      package_from_bencode, dictGet, decode_payload, extract_sender,
      h1, h2, h3]

/-- C1 witness: an empty-field Query package with transaction id
`[1, 2, 254, 255]` and sender identifier 42 at `127.0.0.1:8008`. -/
theorem claim_package_roundtrip_witness :
    ((Package.mk [1, 2, 254, 255] (Payload.query [])
          (some (Node.mk 42 ⟨127, 0, 0, 1, 8008⟩))).payload =
        Payload.query [] ∨
      (Package.mk [1, 2, 254, 255] (Payload.query [])
          (some (Node.mk 42 ⟨127, 0, 0, 1, 8008⟩))).payload =
        Payload.response []) ∧
    (Package.mk [1, 2, 254, 255] (Payload.query [])
        (some (Node.mk 42 ⟨127, 0, 0, 1, 8008⟩))).sender =
      some (Node.mk 42 ⟨127, 0, 0, 1, 8008⟩) ∧
    dictGet SENDER [] = none ∧
    (Node.mk 42 ⟨127, 0, 0, 1, 8008⟩).id < 2 ^ 160 ∧
    package_from_bencode (package_to_bencode
        (Package.mk [1, 2, 254, 255] (Payload.query [])
          (some (Node.mk 42 ⟨127, 0, 0, 1, 8008⟩)))) =
      Except.ok (Package.mk [1, 2, 254, 255] (Payload.query [])
        (some (Node.mk 42 ⟨127, 0, 0, 1, 8008⟩))) :=
  ⟨Or.inl rfl, rfl, rfl, by norm_num,
    claim_package_roundtrip _ [] _ (Or.inl rfl) rfl rfl (by norm_num)⟩

/-- C10.  An Error package with a valid-UTF-8 message and no sender
decodes from its own encoding to exactly itself. -/
theorem claim_error_package_roundtrip (p : Package) (code : Int)
    (msg : List Nat)
    (hpl : p.payload = Payload.error code msg)
    (hs : p.sender = none)
    (hmsg : isValidUtf8 msg = true) :
    package_from_bencode (package_to_bencode p) = Except.ok p := by
  obtain ⟨tt, pl, snd⟩ := p
  have hs' : snd = none := hs
  have hpl' : pl = Payload.error code msg := hpl
  subst hs'
  subst hpl'
  simp +decide [package_to_bencode, dict_with_sender, dictInsert, keyLt,
    QUERY, RESPONSE, ERROR, TYPE, TR_ID, SENDER,
    package_from_bencode, dictGet, decode_payload, hmsg]

/-- C10 witness: the repository test's Error package
`⟨[1, 2, 254, 255], Error(10, "error"), None⟩`. -/
theorem claim_error_package_roundtrip_witness :
    (Package.mk [1, 2, 254, 255]
        (Payload.error 10 [101, 114, 114, 111, 114]) none).payload =
      Payload.error 10 [101, 114, 114, 111, 114] ∧
    (Package.mk [1, 2, 254, 255]
        (Payload.error 10 [101, 114, 114, 111, 114]) none).sender = none ∧
    isValidUtf8 [101, 114, 114, 111, 114] = true ∧
    package_from_bencode (package_to_bencode
        (Package.mk [1, 2, 254, 255]
          (Payload.error 10 [101, 114, 114, 111, 114]) none)) =
      Except.ok (Package.mk [1, 2, 254, 255]
        (Payload.error 10 [101, 114, 114, 111, 114]) none) :=
  ⟨rfl, rfl, by decide,
    claim_error_package_roundtrip _ 10 [101, 114, 114, 111, 114]
      rfl rfl (by decide)⟩

/-- C5.  A top-level dictionary whose `"y"` entry is the byte string
`"q"` and whose `"q"` payload is a dictionary lacking the key `"id"`
fails to decode with the distinct reason `MissingSender`. -/
theorem claim_decode_missing_sender (d body : DictMap)
    (hy : dictGet TYPE d = some (Bencode.bytes QUERY))
    (hq : dictGet QUERY d = some (Bencode.dict body))
    (hid : dictGet SENDER body = none) :
    package_from_bencode (Bencode.dict d) =
      Except.error DecodeError.missingSender := by
  simp +decide [package_from_bencode, hy, hq, decode_payload,
    extract_sender, hid]

/-- C5 witness: `{"e": 0, "q": {}, "tt": [1], "y": "q"}`. -/
theorem claim_decode_missing_sender_witness :
    dictGet TYPE [(ERROR, Bencode.num 0), (QUERY, Bencode.dict []),
        (TR_ID, Bencode.bytes [1]), (TYPE, Bencode.bytes QUERY)] =
      some (Bencode.bytes QUERY) ∧
    dictGet QUERY [(ERROR, Bencode.num 0), (QUERY, Bencode.dict []),
        (TR_ID, Bencode.bytes [1]), (TYPE, Bencode.bytes QUERY)] =
      some (Bencode.dict []) ∧
    dictGet SENDER [] = none ∧
    package_from_bencode (Bencode.dict
        [(ERROR, Bencode.num 0), (QUERY, Bencode.dict []),
          (TR_ID, Bencode.bytes [1]), (TYPE, Bencode.bytes QUERY)]) =
      Except.error DecodeError.missingSender :=
  ⟨rfl, rfl, rfl, claim_decode_missing_sender _ [] rfl rfl rfl⟩

/-- C6.  A well-formed Error payload (2-element list, integer code, byte
string message) whose message is not valid UTF-8 still decodes the whole
package, the message replaced by the fixed placeholder `"Unknown error"`;
and any Error payload not of that 2-element shape fails the package with
`BadErrorShape` — the placeholder substitution is the only non-fatal
fallback in the Error branch. -/
theorem claim_error_utf8_fallback (d : DictMap) (code : Int)
    (msg tt : List Nat)
    (hy : dictGet TYPE d = some (Bencode.bytes ERROR))
    (he : dictGet ERROR d =
      some (Bencode.blist [Bencode.num code, Bencode.bytes msg]))
    (hmsg : isValidUtf8 msg = false)
    (htt : dictGet TR_ID d = some (Bencode.bytes tt)) :
    package_from_bencode (Bencode.dict d) =
        Except.ok (Package.mk tt (Payload.error code unknownError) none) ∧
      ∀ pd, (∀ c m, pd ≠ Bencode.blist [Bencode.num c, Bencode.bytes m]) →
        decode_payload ERROR pd = Except.error DecodeError.badErrorShape := by
  constructor
  · simp +decide [package_from_bencode, hy, he, htt, decode_payload, hmsg]
  · intro pd hpd
    rcases pd with _ | c2 | bs | l | dd
    · simp +decide [decode_payload]
    · simp +decide [decode_payload]
    · simp +decide [decode_payload]
    · rcases l with _ | ⟨x, l⟩
      · simp +decide [decode_payload]
      rcases l with _ | ⟨y, l⟩
      · rcases x with _ | cx | bx | lx | dx <;> simp +decide [decode_payload]
      rcases l with _ | ⟨z, l⟩
      · rcases x with _ | cx | bx | lx | dx <;>
          rcases y with _ | cy | byy | ly | dy <;>
          first
            | exact absurd rfl (hpd _ _)
            | simp +decide [decode_payload]
      · rcases x with _ | cx | bx | lx | dx <;>
          rcases y with _ | cy | byy | ly | dy <;>
          simp +decide [decode_payload]
    · simp +decide [decode_payload]

/-- C6 witness: `{"e": [10, [255]], "tt": [1], "y": "e"}` with the
single byte `255`, which is not valid UTF-8. -/
theorem claim_error_utf8_fallback_witness :
    dictGet TYPE [(ERROR, Bencode.blist [Bencode.num 10, Bencode.bytes [255]]),
        (TR_ID, Bencode.bytes [1]), (TYPE, Bencode.bytes ERROR)] =
      some (Bencode.bytes ERROR) ∧
    dictGet ERROR [(ERROR, Bencode.blist [Bencode.num 10, Bencode.bytes [255]]),
        (TR_ID, Bencode.bytes [1]), (TYPE, Bencode.bytes ERROR)] =
      some (Bencode.blist [Bencode.num 10, Bencode.bytes [255]]) ∧
    isValidUtf8 [255] = false ∧
    dictGet TR_ID [(ERROR, Bencode.blist [Bencode.num 10, Bencode.bytes [255]]),
        (TR_ID, Bencode.bytes [1]), (TYPE, Bencode.bytes ERROR)] =
      some (Bencode.bytes [1]) ∧
    (package_from_bencode (Bencode.dict
        [(ERROR, Bencode.blist [Bencode.num 10, Bencode.bytes [255]]),
          (TR_ID, Bencode.bytes [1]), (TYPE, Bencode.bytes ERROR)]) =
        Except.ok (Package.mk [1] (Payload.error 10 unknownError) none) ∧
      ∀ pd, (∀ c m, pd ≠ Bencode.blist [Bencode.num c, Bencode.bytes m]) →
        decode_payload ERROR pd = Except.error DecodeError.badErrorShape) :=
  ⟨rfl, rfl, by decide, rfl,
    claim_error_utf8_fallback _ 10 [255] [1] rfl rfl (by decide) rfl⟩

theorem extract_sender_ok (d : DictMap) (ty : DictMap → Payload)
    (pl : Payload) (s : Option Node)
    (h : extract_sender d ty = Except.ok (pl, s)) :
    pl = ty (dictRemove SENDER d) ∧ ∃ n, s = some n := by
  unfold extract_sender at h
  split at h
  · split at h
    · simp only [Except.ok.injEq, Prod.mk.injEq] at h
      exact ⟨h.1.symm, _, h.2.symm⟩
    · simp at h
  · simp at h

theorem decode_payload_error_sender (typ : Key) (pd : Bencode)
    (pl : Payload) (s : Option Node) (c : Int) (m : List Nat)
    (h : decode_payload typ pd = Except.ok (pl, s))
    (hpl : pl = Payload.error c m) : s = none := by
  unfold decode_payload at h
  split at h
  · split at h
    · simp only [Except.ok.injEq, Prod.mk.injEq] at h
      exact h.2.symm
    · simp at h
  · split at h
    · split at h
      · obtain ⟨hp, n, hn⟩ := extract_sender_ok _ _ _ _ h
        rw [hp] at hpl
        simp at hpl
      · simp at h
    · split at h
      · split at h
        · obtain ⟨hp, n, hn⟩ := extract_sender_ok _ _ _ _ h
          rw [hp] at hpl
          simp at hpl
        · simp at h
      · simp at h

/-- C7.  Whenever package decoding succeeds with an Error payload, the
decoded package's sender is `None`. -/
theorem claim_decoded_error_no_sender (b : Bencode) (p : Package)
    (c : Int) (m : List Nat)
    (hdec : package_from_bencode b = Except.ok p)
    (hpl : p.payload = Payload.error c m) :
    p.sender = none := by
  unfold package_from_bencode at hdec
  split at hdec
  · split at hdec
    · split at hdec
      · split at hdec
        · split at hdec
          · simp only [Except.ok.injEq] at hdec
            subst hdec
            exact decode_payload_error_sender _ _ _ _ _ _ (by assumption) hpl
          · simp at hdec
        · simp at hdec
      · simp at hdec
    · simp at hdec
  · simp at hdec

/-- C7 witness at the encoded Error package
`{"e": [10, "error"], "tt": [1], "y": "e"}`. -/
theorem claim_decoded_error_no_sender_witness :
    package_from_bencode (Bencode.dict
        [(ERROR, Bencode.blist [Bencode.num 10,
            Bencode.bytes [101, 114, 114, 111, 114]]),
          (TR_ID, Bencode.bytes [1]), (TYPE, Bencode.bytes ERROR)]) =
      Except.ok (Package.mk [1]
        (Payload.error 10 [101, 114, 114, 111, 114]) none) ∧
    (Package.mk [1] (Payload.error 10 [101, 114, 114, 111, 114])
        none).payload = Payload.error 10 [101, 114, 114, 111, 114] ∧
    (Package.mk [1] (Payload.error 10 [101, 114, 114, 111, 114])
        none).sender = none :=
  ⟨rfl, rfl,
    claim_decoded_error_no_sender
      (Bencode.dict
        [(ERROR, Bencode.blist [Bencode.num 10,
            Bencode.bytes [101, 114, 114, 111, 114]]),
          (TR_ID, Bencode.bytes [1]), (TYPE, Bencode.bytes ERROR)])
      (Package.mk [1] (Payload.error 10 [101, 114, 114, 111, 114]) none)
      10 [101, 114, 114, 111, 114] rfl rfl⟩

end Dht
